import Mathlib

/-!
# Verification of the ENA wizard tool metadata validation and submission pipeline

Shallow embedding of the validation and submission-document logic of the
`NFDI4Microbiota/ena_wizard_tool` repository:

* `App/modules/create_validate_metadata.py` — the dataset normalizer
  (`ensure_tail_blank`), the validation passes (`validate_required`,
  `validate_regex`, `validate_unique_key`, `validate_ena_checklist`,
  `validate_semantics`), the shape validators, and the export gate of `runUI`.
* `nfdi-ena-cli.py` — the CLI validator (`validate_dataframe`), the batch
  splitting of `build_and_submit`, and the fasta-scanning / manifest logic.

Cell values are modelled by the `Cell` universe: strings, dates (including the
null date `NaT`), and booleans (the `_delete` helper column).  Python regular
expressions are modelled by a small regex language (`Regex`) with a
Brzozowski-derivative matcher; `compileRegex` is a parser for the fragment of
Python regex syntax used by the tool (literals, groups, `?`, `\d`, bounded
repetition); strings outside this fragment (in particular syntactically
malformed patterns such as an unbalanced `(`) fail to compile, mirroring
`re.error` in `re.compile`.
-/

/-! ## Regular expressions: syntax, derivative matcher, search -/

/-- Regex abstract syntax.  `nul` is the empty language, `eps` the empty
string, `digitR` is `\d` (ASCII digits), `cat`/`alt` are concatenation and
union.  Bounded repetition and `?` are desugared at parse time. -/
inductive Regex where
  | nul : Regex
  | eps : Regex
  | chr : Char → Regex
  | digitR : Regex
  | cat : Regex → Regex → Regex
  | alt : Regex → Regex → Regex
deriving DecidableEq, Repr

/-- Does the regex accept the empty string? -/
def Regex.nullable : Regex → Bool
  | .nul => false
  | .eps => true
  | .chr _ => false
  | .digitR => false
  | .cat a b => a.nullable && b.nullable
  | .alt a b => a.nullable || b.nullable

/-- Brzozowski derivative with respect to one character. -/
def Regex.deriv : Regex → Char → Regex
  | .nul, _ => .nul
  | .eps, _ => .nul
  | .chr c, d => if c = d then .eps else .nul
  | .digitR, d => if d.isDigit then .eps else .nul
  | .cat a b, d => if a.nullable then .alt (.cat (a.deriv d) b) (b.deriv d) else .cat (a.deriv d) b
  | .alt a b, d => .alt (a.deriv d) (b.deriv d)

/-- `re.fullmatch`: the whole string must belong to the language. -/
def Regex.fullmatchR (r : Regex) (s : String) : Bool :=
  (s.data.foldl Regex.deriv r).nullable

/-- Regex accepting exactly the given literal character sequence. -/
def strR : List Char → Regex
  | [] => .eps
  | c :: cs => .cat (.chr c) (strR cs)

/-- `r?` — zero or one occurrence. -/
def optR (r : Regex) : Regex := .alt .eps r

/-- `r{n}` — exactly `n` occurrences. -/
def repR (r : Regex) : Nat → Regex
  | 0 => .eps
  | n + 1 => .cat r (repR r n)

/-- `r{0,n}` — at most `n` occurrences. -/
def upToR (r : Regex) : Nat → Regex
  | 0 => .eps
  | n + 1 => .cat (optR r) (upToR r n)

/-- `r{lo,hi}` — between `lo` and `hi` occurrences (desugared). -/
def rangeR (r : Regex) (lo hi : Nat) : Regex :=
  .cat (repR r lo) (upToR r (hi - lo))

/-- `polars` `str.contains`: some substring matches (regex search, not full
match). -/
def Regex.searchR (r : Regex) (s : String) : Bool :=
  (List.range (s.data.length + 1)).any fun i =>
    (List.range (s.data.length - i + 1)).any fun j =>
      r.fullmatchR (String.mk ((s.data.drop i).take j))

/-! ### A parser for the fragment of Python regex syntax used by the tool

`compileRegex` models `re.compile`: it returns `none` exactly when the pattern
is rejected (modelling `re.error`).  The supported fragment: plain characters,
escaped specials, `\d`, groups `( … )`, `?`, `{n}` and `{m,n}`.  Patterns
outside the fragment are conservatively rejected. -/

/-- Characters that stand for themselves in a pattern. -/
def plainChar (c : Char) : Bool :=
  !(c = '\\' || c = '(' || c = ')' || c = Char.ofNat 123 || c = Char.ofNat 125 ||
    c = '?' || c = '*' || c = '+' || c = '[' || c = ']' || c = '.' ||
    c = '|' || c = '^' || c = '$')

/-- Parse a decimal number (at least one digit). -/
def parseNatNum : List Char → Option (Nat × List Char)
  | c :: cs =>
    if c.isDigit then
      let rec go (acc : Nat) : List Char → Nat × List Char
        | [] => (acc, [])
        | d :: ds => if d.isDigit then go (acc * 10 + (d.toNat - 48)) ds else (acc, d :: ds)
      some (go (c.toNat - 48) cs)
    else none
  | [] => none

/-- Parse a postfix operator (`?`, `{n}`, `{m,n}`) applied to `r`, if present. -/
def parseSuffixOp (r : Regex) (cs : List Char) : Option (Regex × List Char) :=
  match cs with
  | '?' :: rest => some (optR r, rest)
  | c :: rest =>
    if c = Char.ofNat 123 then
      match parseNatNum rest with
      | some (n, rest2) =>
        match rest2 with
        | c2 :: rest3 =>
          if c2 = Char.ofNat 125 then some (repR r n, rest3)
          else if c2 = ',' then
            match parseNatNum rest3 with
            | some (m, c3 :: rest4) =>
              if c3 = Char.ofNat 125 && decide (n ≤ m) then some (rangeR r n m, rest4)
              else none
            | _ => none
          else none
        | [] => none
      | none => none
    else some (r, cs)
  | [] => some (r, [])

/-- Parse a sequence of items until the end of input or an unconsumed `)`.
`fuel` bounds the recursion (each step consumes input). -/
def parseSeq : Nat → List Char → Option (Regex × List Char)
  | 0, _ => none
  | _ + 1, [] => some (.eps, [])
  | fuel + 1, cs@(c :: rest) =>
    if c = ')' then some (.eps, cs)
    else
      let atom? : Option (Regex × List Char) :=
        if c = '(' then
          match parseSeq fuel rest with
          | some (r, ')' :: rest2) => some (r, rest2)
          | _ => none
        else if c = '\\' then
          match rest with
          | 'd' :: rest2 => some (.digitR, rest2)
          | c2 :: rest2 => if c2.isAlphanum then none else some (.chr c2, rest2)
          | [] => none
        else if plainChar c then some (.chr c, rest)
        else none
      match atom? with
      | none => none
      | some (r, rest2) =>
        match parseSuffixOp r rest2 with
        | none => none
        | some (r2, rest3) =>
          match parseSeq fuel rest3 with
          | some (r4, rest4) => some (.cat r2 r4, rest4)
          | none => none

/-- `re.compile`, restricted to the supported fragment: `none` models a
pattern that raises `re.error` (or is unsupported). -/
def compileRegex (pat : String) : Option Regex :=
  match parseSeq (2 * pat.data.length + 2) pat.data with
  | some (r, []) => some r
  | _ => none

/-! ## String helpers

Kernel-reducible counterparts of `str.strip()`, `str.lower()` and friends
(`String.trim` and other byte-indexed primitives do not reduce inside
`decide`). -/

/-- Python `str.strip()`: drop leading and trailing whitespace. -/
def pyStrip (s : String) : String :=
  ⟨((s.data.dropWhile Char.isWhitespace).reverse.dropWhile Char.isWhitespace).reverse⟩

/-- Python `str.lower()` (ASCII). -/
def pyToLower (s : String) : String :=
  ⟨s.data.map Char.toLower⟩

/-- Python `s.split(";")[0]`: the prefix before the first semicolon. -/
def headSemicolon (s : String) : String :=
  ⟨s.data.takeWhile (· ≠ ';')⟩

/-- Python `s.startswith(p)` for a single-character prefix. -/
def startsWithChar (s : String) (c : Char) : Bool :=
  match s.data with
  | d :: _ => d = c
  | [] => false

/-- Python `s[1:]`. -/
def dropFirstChar (s : String) : String :=
  ⟨s.data.drop 1⟩

/-! ## Cells and dataframes

The value universe of the edited table: strings, dates (a date cell is either
the null date `NaT` or a concrete date carrying its ISO rendering), and
booleans (the `_delete` helper column).  Numeric cells do not occur in any of
the verified properties and are omitted from the universe. -/

inductive Cell where
  | str : String → Cell
  | dateNaT : Cell
  | dateVal : String → Cell
  | boolC : Bool → Cell
deriving DecidableEq, Repr

/-- `pd.isna` on our universe: only the null date is NA. -/
def Cell.isna : Cell → Bool
  | .dateNaT => true
  | _ => false

/-- Python `str(value)` (as used by `astype(str)` and f-strings). -/
def Cell.pyStr : Cell → String
  | .str s => s
  | .dateNaT => "NaT"
  | .dateVal s => s
  | .boolC b => if b then "True" else "False"

/-- One cell of `_is_blank_row`:
`pd.isna(v) or str(v).strip() == "" or (isinstance(v, bool) and v is False)`. -/
def isBlankCell (v : Cell) : Bool :=
  v.isna || (pyStrip v.pyStr = "") || (v = Cell.boolC false)

/-- `_is_blank_row` (create_validate_metadata.py line 204). -/
def _is_blank_row (row : List Cell) : Bool :=
  row.all isBlankCell

/-- The blank-cell test used by `validate_required` (line 279) and
`drop_tail_blank_for_export` (line 234): `pd.isna(v) or str(v).strip() == ""`
(no special case for booleans). -/
def isBlankCellNB (v : Cell) : Bool :=
  v.isna || (pyStrip v.pyStr = "")

/-- A column of the table: its name and whether its dtype is datetime
(`pd.api.types.is_datetime64_any_dtype`). -/
structure Col where
  name : String
  isDate : Bool
deriving DecidableEq, Repr

/-- A dataframe: ordered columns and rows (each row lists its cells in column
order). -/
structure DataFrame where
  cols : List Col
  rows : List (List Cell)
deriving DecidableEq, Repr

def DataFrame.colnames (df : DataFrame) : List String :=
  df.cols.map Col.name

/-- Cell of a row at a column position (pandas guarantees alignment; a missing
position reads as an empty string). -/
def cellAt (row : List Cell) (j : Nat) : Cell :=
  row.getD j (Cell.str "")

/-! ## Constants from create_validate_metadata.py -/

def DELETE_COL : String := "_delete"
def STATUS_COL : String := "_row_status"

def REQUIRED_EXTRA_COLUMNS : List String :=
  ["sample_name", "experiment", "completeness score", "contamination score",
   "organism", "tax_id", "metagenomic source", "sample derived from",
   "project name", "completeness software", "binning software",
   "assembly quality", "binning parameters", "taxonomic identity marker",
   "isolation_source", "collection date", "geographic location (latitude)",
   "geographic location (longitude)", "broad-scale environmental context",
   "local environmental context", "environmental medium",
   "geographic location (country and/or sea)", "assembly software",
   "genome coverage", "platform", "ENA-CHECKLIST"]

/-- `REQUIRED_FIELDS = {c.lower() for c in REQUIRED_EXTRA_COLUMNS}` (a set of
pairwise distinct names, kept as a list). -/
def REQUIRED_FIELDS : List String :=
  REQUIRED_EXTRA_COLUMNS.map pyToLower

def UNIQUE_KEY_ALIASES : List String := ["project name", "project_name"]

def ENA_CHECKLIST_ALLOWED : List String :=
  ["ERC000011", "ERC000012", "ERC000013", "ERC000047"]

/-! ## Validation issues and the spec table -/

/-- `ValidationIssue`: one record of a validator report
(`{"row_index": …, "field": …, "value": …, "valid": …, "message": …}`). -/
structure Issue where
  row_index : Option Nat
  field : String
  value : String
  valid : Bool
  message : String
deriving DecidableEq, Repr

/-- One row of the normalized spec CSV, restricted to the columns the
validators read (`field`, `regex`, `kind`). -/
structure SpecRow where
  field : String
  regex : String
  kind : String
deriving DecidableEq, Repr

/-- Last spec row carrying the given field name (Python dict comprehensions
keyed by `r["field"]` let the last row win). -/
def lastSpecRow : List SpecRow → String → Option SpecRow
  | [], _ => none
  | r :: rs, f =>
    match lastSpecRow rs f with
    | some x => some x
    | none => if r.field = f then some r else none

/-- `kinds.get(field, "text")`. -/
def kindOf (specs : List SpecRow) (f : String) : String :=
  match lastSpecRow specs f with
  | some r => r.kind
  | none => "text"

/-- `rx_raw.get(field, '')`. -/
def rawRegexOf (specs : List SpecRow) (f : String) : String :=
  match lastSpecRow specs f with
  | some r => r.regex
  | none => ""

/-- `_compiled_regex_map_tuple` (lines 253-267): compile each field's pattern;
an empty pattern, an absent field, or a pattern rejected by the compiler
(`except re.error`) all map to `None`. -/
def compiledRegexOf (specs : List SpecRow) (f : String) : Option Regex :=
  match lastSpecRow specs f with
  | some r => if r.regex = "" then none else compileRegex r.regex
  | none => none

/-- `to_str_for_regex` (lines 238-248).  For a parseable date value the code
renders `pd.to_datetime(value).date().isoformat()`; a `dateVal` cell carries
that rendering.  (Numeric cells are outside the modelled universe.) -/
def to_str_for_regex (v : Cell) (kind : String) : String :=
  if v.isna then ""
  else if v = Cell.str "" then ""
  else if kind = "date" then
    match v with
    | Cell.dateVal s => s
    | _ => v.pyStr
  else v.pyStr

/-- `fields_lower = {c.lower(): c for c in df.columns}`: index of the last
column whose lowercased name equals `fl`. -/
def lookupColCI : List String → String → Option Nat
  | [], _ => none
  | c :: cs, fl =>
    match lookupColCI cs fl with
    | some j => some (j + 1)
    | none => if pyToLower c = fl then some 0 else none

/-- `validate_required` (lines 273-291): for every non-blank row, every
declared required field must be present and non-empty; a required field absent
from the table is reported once per non-blank row. -/
def validate_required (df : DataFrame) (specs : List SpecRow) : List Issue :=
  df.rows.enum.flatMap fun p =>
    if p.2.all isBlankCellNB then []
    else
      REQUIRED_FIELDS.flatMap fun fl =>
        match lookupColCI df.colnames fl with
        | none =>
          [{ row_index := some p.1, field := fl, value := "", valid := false,
             message := "Required field missing in table schema." }]
        | some j =>
          let fReal := df.colnames.getD j ""
          let s := to_str_for_regex (cellAt p.2 j) (kindOf specs fReal)
          if s = "" then
            [{ row_index := some p.1, field := fReal, value := s, valid := false,
               message := "Required: must not be empty." }]
          else []

/-- `validate_regex` (lines 293-312): per-cell regex pass over every column of
the table.  An empty rendering, or a field with no (or no compilable) pattern,
is reported as valid. -/
def validate_regex (df : DataFrame) (specs : List SpecRow) : List Issue :=
  df.rows.enum.flatMap fun p =>
    df.cols.enum.flatMap fun q =>
      let field := q.2.name
      let s := to_str_for_regex (cellAt p.2 q.1) (kindOf specs field)
      if s = "" then
        [{ row_index := some p.1, field := field, value := s, valid := true,
           message := "Empty (ok if not required)." }]
      else
        match compiledRegexOf specs field with
        | some rx =>
          let ok := rx.fullmatchR s
          [{ row_index := some p.1, field := field, value := s, valid := ok,
             message := if ok then "OK" else "Regex mismatch: " ++ rawRegexOf specs field }]
        | none =>
          [{ row_index := some p.1, field := field, value := s, valid := true,
             message := "No regex" }]

/-- `resolve_unique_key` (lines 314-318): first alias present among the
columns, defaulting to the first alias. -/
def resolve_unique_key (df : DataFrame) : String :=
  match UNIQUE_KEY_ALIASES.find? (fun k => df.colnames.contains k) with
  | some k => k
  | none => "project name"

/-- `df[key].astype(str).fillna("").str.strip()` applied to one cell. -/
def keyStrCell (v : Cell) : String :=
  pyStrip v.pyStr

/-- `validate_unique_key` (lines 320-330).  If the key field is absent, one
dataset-level issue; otherwise every row whose trimmed, non-empty key value
occurs more than once is flagged.  (Quotes around the field name in the
messages are omitted.) -/
def validate_unique_key (df : DataFrame) (key_field : String) : List Issue :=
  match df.colnames.findIdx? (· = key_field) with
  | none =>
    [{ row_index := none, field := key_field, value := "", valid := false,
       message := "Unique key field " ++ key_field ++ " missing in schema." }]
  | some j =>
    let vs := df.rows.map fun r => keyStrCell (cellAt r j)
    vs.enum.filterMap fun p =>
      if p.2 ≠ "" ∧ 1 < vs.count p.2 then
        some { row_index := some p.1, field := key_field, value := p.2, valid := false,
               message := "Duplicate " ++ key_field ++ ": must be unique." }
      else none

/-! ### Shape validators (lines 333-350)

Each is `re.fullmatch` of a fixed literal pattern against the stripped
rendering of the value; the patterns are transcribed into the regex AST:
`(ENVO:)?\d{7}`, `(CHEBI:)?\d{1,6}`, `\d{1,9}`. -/

def ENVO_PATTERN : Regex := .cat (optR (strR "ENVO:".data)) (repR .digitR 7)

def CHEBI_PATTERN : Regex := .cat (optR (strR "CHEBI:".data)) (rangeR .digitR 1 6)

def TAXID_PATTERN : Regex := rangeR .digitR 1 9

def validate_envo_like (s : String) : Bool :=
  ENVO_PATTERN.fullmatchR (pyStrip s)

/-- `str(s).strip().split(";")[0]` then match `(CHEBI:)?\d{1,6}`. -/
def validate_chebi_like (s : String) : Bool :=
  CHEBI_PATTERN.fullmatchR (headSemicolon (pyStrip s))

def validate_taxid_like (s : String) : Bool :=
  TAXID_PATTERN.fullmatchR (pyStrip s)

/-- `SEMANTIC_FIELDS` (lines 343-350), in dict insertion order. -/
def SEMANTIC_FIELDS : List (String × (String → Bool)) :=
  [("env_broad_scale", validate_envo_like),
   ("env_local_scale", validate_envo_like),
   ("env_medium", validate_envo_like),
   ("chem_administration", validate_chebi_like),
   ("samp_taxon_id", validate_taxid_like),
   ("tax_id", validate_taxid_like)]

/-- `validate_semantics` (lines 352-363). -/
def validate_semantics (df : DataFrame) : List Issue :=
  SEMANTIC_FIELDS.flatMap fun fp =>
    match df.colnames.findIdx? (· = fp.1) with
    | none => []
    | some j =>
      df.rows.enum.flatMap fun p =>
        let v := cellAt p.2 j
        if v.isna || pyStrip v.pyStr = "" then []
        else if fp.2 v.pyStr then []
        else
          [{ row_index := some p.1, field := fp.1, value := v.pyStr, valid := false,
             message := "Ontology/ID shape mismatch (expected ENVO/CHEBI/TaxID pattern)." }]

/-- `fillna("")` on one cell. -/
def fillnaEmpty (v : Cell) : Cell :=
  if v.isna then Cell.str "" else v

/-- `validate_ena_checklist` (lines 365-374). -/
def validate_ena_checklist (df : DataFrame) : List Issue :=
  match df.colnames.findIdx? (· = "ENA-CHECKLIST") with
  | none =>
    [{ row_index := none, field := "ENA-CHECKLIST", value := "", valid := false,
       message := "ENA-CHECKLIST missing in schema." }]
  | some j =>
    df.rows.enum.flatMap fun p =>
      let v := fillnaEmpty (cellAt p.2 j)
      if v = Cell.str "" then []
      else
        let ok := match v with
          | Cell.str s => ENA_CHECKLIST_ALLOWED.contains s
          | _ => false
        if ok then []
        else
          [{ row_index := some p.1, field := "ENA-CHECKLIST", value := v.pyStr, valid := false,
             message := "Value not in allowed ENA checklist list." }]

/-! ## The official validation report and the export gate (runUI lines 774-899) -/

/-- The concatenated report of runUI lines 779-789: required, regex, unique
key (via `resolve_unique_key`), ENA checklist, semantics — in that order. -/
def fullReport (df : DataFrame) (specs : List SpecRow) : List Issue :=
  validate_required df specs ++ validate_regex df specs ++
    validate_unique_key df (resolve_unique_key df) ++
    validate_ena_checklist df ++ validate_semantics df

/-- One cell of the invalid mask built at runUI lines 792-798: set exactly
when some invalid issue carries this row index (a non-`None` index inside the
dataframe's index) and this column name. -/
def maskCell (df : DataFrame) (specs : List SpecRow) (i : Nat) (c : String) : Bool :=
  (fullReport df specs).any fun is =>
    !is.valid && is.row_index = some i && decide (i < df.rows.length) && is.field = c

/-- The download gate of runUI line 892: `(~invalid_mask).all().all()` — no
cell of the invalid mask is set. -/
def exportGate (df : DataFrame) (specs : List SpecRow) : Bool :=
  (List.range df.rows.length).all fun i =>
    df.colnames.all fun c => !maskCell df specs i c

/-! ## The normalizer `ensure_tail_blank` (lines 207-224) -/

/-- Python truthiness used by `.astype(bool)` on an object column. -/
def cellToBool : Cell → Bool
  | .str s => s ≠ ""
  | .dateNaT => true
  | .dateVal _ => true
  | .boolC b => b

/-- `fillna(False)` on one cell. -/
def fillnaFalse (v : Cell) : Cell :=
  if v.isna then Cell.boolC false else v

/-- `df[DELETE_COL] = df[DELETE_COL].fillna(False).astype(bool)` applied to
the cell of column `c`. -/
def coerceDeleteCell (c : Col) (v : Cell) : Cell :=
  if c.name = DELETE_COL then Cell.boolC (cellToBool (fillnaFalse v)) else v

def coerceRow : List Col → List Cell → List Cell
  | _, [] => []
  | [], v :: vs => v :: coerceRow [] vs
  | c :: cs, v :: vs => coerceDeleteCell c v :: coerceRow cs vs

/-- The freshly typed blank cell appended by lines 215-222: `False` for the
delete column, `pd.NaT` for datetime columns, `""` otherwise. -/
def blankCell (c : Col) : Cell :=
  if c.name = DELETE_COL then Cell.boolC false
  else if c.isDate then Cell.dateNaT
  else Cell.str ""

def blankRow (cols : List Col) : List Cell :=
  cols.map blankCell

/-- `ensure_tail_blank` (lines 207-224): drop every fully blank row, ensure a
boolean `_delete` column, and append one freshly typed blank row. -/
def ensure_tail_blank (df : DataFrame) : DataFrame :=
  let kept := df.rows.filter fun r => !_is_blank_row r
  let hasDel := df.cols.any fun c => c.name = DELETE_COL
  let cols := if hasDel then df.cols else df.cols ++ [{ name := DELETE_COL, isDate := false }]
  let padded := if hasDel then kept else kept.map fun r => r ++ [Cell.boolC false]
  let rows := padded.map (coerceRow cols)
  { cols := cols, rows := rows ++ [blankRow cols] }

/-! ## The CLI validator (nfdi-ena-cli.py lines 109-155)

The CLI reads the metadata with `infer_schema_length=0`, so every column is a
(nullable) string column: a column is a name plus a list of optional strings.
A field definition pairs a check kind (free / regex / enum — the regex kind
carries its compiled pattern, mirroring the dict built by
`load_fields_from_xml`) with the mandatory flag. -/

inductive CliKind where
  | free : CliKind
  | regexK : Regex → CliKind
  | enumK : List String → CliKind
deriving Repr

structure CliField where
  kind : CliKind
  mandatory : Bool
deriving Repr

structure CliFrame where
  cols : List (String × List (Option String))
deriving Repr

/-- Python dict lookup `field_defs[col]` (keys are unique; first match). -/
def lookupFd (fdefs : List (String × CliField)) (name : String) : Option CliField :=
  (fdefs.find? fun p => p.1 = name).map Prod.snd

/-- `pl.col(col).is_null() | (pl.col(col).str.strip_chars() == "")` — the rows
(1-based, `with_row_index(offset=1)`) failing the mandatory check. -/
def mandatoryBadRows (vals : List (Option String)) : List Nat :=
  vals.enum.filterMap fun p =>
    match p.2 with
    | none => some (p.1 + 1)
    | some s => if pyStrip s = "" then some (p.1 + 1) else none

/-- Rows with a non-null, non-blank value not containing a match of the
pattern (`~pl.col(col).str.contains(pattern)`). -/
def regexBadRows (rx : Regex) (vals : List (Option String)) : List Nat :=
  vals.enum.filterMap fun p =>
    match p.2 with
    | none => none
    | some s => if pyStrip s ≠ "" ∧ rx.searchR s = false then some (p.1 + 1) else none

/-- Rows with a non-null, non-blank value outside the allowed choices
(`~pl.col(col).is_in(field["enum"])`). -/
def enumBadRows (choices : List String) (vals : List (Option String)) : List Nat :=
  vals.enum.filterMap fun p =>
    match p.2 with
    | none => none
    | some s => if pyStrip s ≠ "" ∧ ¬ choices.contains s then some (p.1 + 1) else none

/-- The error strings one column contributes, in check order (mandatory,
regex, enum).  Message punctuation is simplified (no quotes). -/
def colErrors (name : String) (vals : List (Option String)) (fd : CliField) : List String :=
  (if fd.mandatory then
    match mandatoryBadRows vals with
    | [] => []
    | bad => ["Column " ++ name ++ ": empty at rows " ++ toString bad]
  else []) ++
  (match fd.kind with
   | .regexK rx =>
     match regexBadRows rx vals with
     | [] => []
     | bad => ["Column " ++ name ++ ": regex mismatch at rows " ++ toString bad]
   | _ => []) ++
  (match fd.kind with
   | .enumK choices =>
     match enumBadRows choices vals with
     | [] => []
     | bad => ["Column " ++ name ++ ": invalid choice at rows " ++ toString bad]
   | _ => [])

/-- The `errors` list accumulated by `validate_dataframe`: columns of the
frame in order, skipping those absent from the field definitions. -/
def collectErrors (df : CliFrame) (fdefs : List (String × CliField)) : List String :=
  df.cols.flatMap fun col =>
    match lookupFd fdefs col.1 with
    | none => []
    | some fd => colErrors col.1 col.2 fd

/-- `validate_dataframe` (lines 109-155): raise a single `ValueError` joining
every accumulated error, or return normally. -/
def validate_dataframe (df : CliFrame) (fdefs : List (String × CliField)) :
    Except String Unit :=
  match collectErrors df fdefs with
  | [] => Except.ok ()
  | errs => Except.error (String.intercalate "\n" errs)

/-! ## Batch splitting in build_and_submit (nfdi-ena-cli.py lines 190-228,
App/modules/submit.py lines 229-266)

`for offset in range(0, len(df), batch_size)` and `df.slice(offset,
batch_size)`: contiguous slices in original row order, one XML document (one
`SAMPLE_SET`, one `SAMPLE` element per row) per slice. -/

/-- `range(0, n, bs)` for `bs > 0`. -/
def batchOffsets (n bs : Nat) : List Nat :=
  (List.range ((n + bs - 1) / bs)).map (· * bs)

/-- `df.slice(offset, length)` (polars slice semantics). -/
def dfSlice (rows : List α) (off len : Nat) : List α :=
  (rows.drop off).take len

/-- The batches processed by `build_and_submit`; each one yields one XML
submission document whose sample elements are the batch rows in order. -/
def buildBatches (rows : List α) (bs : Nat) : List (List α) :=
  (batchOffsets rows.length bs).map fun off => dfSlice rows off bs

/-! ## Fasta scanning and the upload manifest (nfdi-ena-cli.py lines 368-405) -/

/-- Result of the header-counting loop over the decompressed fasta lines:
the record count as observed (the loop stops as soon as it exceeds 1), the
last header seen (`line[1:].strip()`), and how many lines were read. -/
structure ScanResult where
  seq_count : Nat
  last_header : Option String
  consumed : Nat
deriving DecidableEq, Repr

def isHeaderLine (l : String) : Bool :=
  startsWithChar l '>'

def scanFastaAux : List String → Nat → Option String → Nat → ScanResult
  | [], cnt, lh, used => { seq_count := cnt, last_header := lh, consumed := used }
  | l :: ls, cnt, lh, used =>
    if isHeaderLine l then
      let lh2 := some (pyStrip (dropFirstChar l))
      if 1 < cnt + 1 then { seq_count := cnt + 1, last_header := lh2, consumed := used + 1 }
      else scanFastaAux ls (cnt + 1) lh2 (used + 1)
    else scanFastaAux ls cnt lh (used + 1)

/-- The loop at lines 371-381: count sequence records, remember the last
header, and `break` once a second record is confirmed. -/
def scanFasta (lines : List String) : ScanResult :=
  scanFastaAux lines 0 none 0

/-- The per-sample upload manifest (lines 384-400), as a key-value record;
`chromosome_list` is the optional `CHROMOSOME_LIST` entry pointing at the
synthesized side-file. -/
structure Manifest where
  study : String
  sample : String
  assemblyname : String
  assembly_type : String
  coverage : String
  program : String
  platform : String
  fasta : String
  chromosome_list : Option String
deriving DecidableEq, Repr

/-- Build the manifest for one sample: the fixed base entries, plus a
`CHROMOSOME_LIST` entry exactly when the scan saw a single record. -/
def buildManifest (project sample_acc aliasName cov prog plat fasta_path chrom_path : String)
    (lines : List String) : Manifest :=
  let scan := scanFasta lines
  { study := project, sample := sample_acc, assemblyname := aliasName,
    assembly_type := "Metagenome-Assembled Genome (MAG)",
    coverage := cov, program := prog, platform := plat, fasta := fasta_path,
    chromosome_list := if scan.seq_count = 1 then some chrom_path else none }

/-- Content of the synthesized chromosome-list side-file (line 395):
`f"{last_header}\t{alias}\tchromosome"`, written only when the scan saw a
single record. -/
def chromosomeListContent (aliasName : String) (scan : ScanResult) : Option String :=
  if scan.seq_count = 1 then
    some ((scan.last_header.getD "None") ++ "\t" ++ aliasName ++ "\tchromosome")
  else none

/-! ## Concrete instances used by counterexamples and witnesses -/

/-- One data row, one ordinary column, none of the required / key / checklist
columns present. -/
def dfGate : DataFrame :=
  { cols := [{ name := "a", isDate := false }], rows := [[Cell.str "x"]] }

def specsGate : List SpecRow := [{ field := "a", regex := "", kind := "text" }]

/-- Zero rows, key and checklist columns present. -/
def dfGateEmpty : DataFrame :=
  { cols := [{ name := "project name", isDate := false },
             { name := "ENA-CHECKLIST", isDate := false }],
    rows := [] }

/-- A schema whose only field carries the malformed pattern `(`
(rejected by `re.compile`). -/
def specsBadRx : List SpecRow := [{ field := "a", regex := "(", kind := "text" }]

def dfBadRx : DataFrame :=
  { cols := [{ name := "a", isDate := false }], rows := [[Cell.str "x"]] }

/-- Two non-blank rows; every required column (e.g. `tax_id`) is absent. -/
def dfReqMissing : DataFrame :=
  { cols := [{ name := "sample_name", isDate := false }],
    rows := [[Cell.str "a"], [Cell.str "b"]] }

/-- Key column present; two rows with the same trimmed key, one with an empty
key. -/
def dfDupKey : DataFrame :=
  { cols := [{ name := "project name", isDate := false }],
    rows := [[Cell.str "A"], [Cell.str " A "], [Cell.str ""]] }

/-- An interior fully blank row followed by a non-blank row. -/
def dfInteriorBlank : DataFrame :=
  { cols := [{ name := "a", isDate := false }, { name := DELETE_COL, isDate := false }],
    rows := [[Cell.str "", Cell.boolC false], [Cell.str "x", Cell.boolC false]] }

/-- A dataframe ending in exactly one fully blank row (and containing no other
blank row) whose trailing blank holds whitespace rather than the freshly typed
blank. -/
def dfWhitespaceTail : DataFrame :=
  { cols := [{ name := "a", isDate := false }, { name := DELETE_COL, isDate := false }],
    rows := [[Cell.str " ", Cell.boolC false]] }

/-- Fasta line lists with exactly one and with two records. -/
def fastaOneRecord : List String := [">chr1 desc", "ACGT", "GGCC"]

def fastaTwoRecords : List String := [">chr1", "ACGT", ">chr2", "GGCC", "TTAA"]

/-- A CLI frame with a single unknown column, and a field-definition list
declaring a mandatory field whose column is absent from the frame. -/
def dfCli : CliFrame := { cols := [("x", [some "v"])] }

def fdMandatory : CliField := { kind := CliKind.free, mandatory := true }

/-! ## General helper lemmas -/

section Helpers

variable {α : Type} {β : Type}

theorem enum_mem_of_lt {l : List α} {i : Nat} (h : i < l.length) (d : α) :
    (i, l.getD i d) ∈ l.enum := by
  rw [List.mk_mem_enum_iff_getElem?, List.getD_eq_getElem?_getD,
    List.getElem?_eq_getElem h]
  rfl

theorem enum_fst_lt {l : List α} {p : Nat × α} (h : p ∈ l.enum) : p.1 < l.length := by
  obtain ⟨i, x⟩ := p
  rw [List.mk_mem_enum_iff_getElem?] at h
  exact (List.getElem?_eq_some_iff.mp h).1

theorem enum_snd_eq {l : List α} {i : Nat} {x : α} (h : (i, x) ∈ l.enum) (d : α) :
    l.getD i d = x := by
  rw [List.mk_mem_enum_iff_getElem?] at h
  rw [List.getD_eq_getElem?_getD, h]
  rfl

theorem two_le_count_of_pair [BEq α] [LawfulBEq α] {l : List α} {v : α} :
    ∀ {i j : Nat}, i ≠ j → l[i]? = some v → l[j]? = some v → 1 < l.count v := by
  induction l with
  | nil => intro i j _ hi _; simp at hi
  | cons x xs ih =>
    intro i j hij hi hj
    match i, j with
    | 0, 0 => exact absurd rfl hij
    | 0, k + 1 =>
      simp only [List.getElem?_cons_zero, Option.some.injEq] at hi
      simp only [List.getElem?_cons_succ] at hj
      have hv : v ∈ xs := by
        have := List.getElem?_eq_some_iff.mp hj
        obtain ⟨h1, h2⟩ := this
        exact h2 ▸ List.getElem_mem h1
      have h1 : 0 < xs.count v := List.count_pos_iff.mpr hv
      have h2 : (x :: xs).count v = xs.count v + 1 := by
        rw [List.count_cons, hi]; simp
      omega
    | k + 1, 0 =>
      simp only [List.getElem?_cons_zero, Option.some.injEq] at hj
      simp only [List.getElem?_cons_succ] at hi
      have hv : v ∈ xs := by
        have := List.getElem?_eq_some_iff.mp hi
        obtain ⟨h1, h2⟩ := this
        exact h2 ▸ List.getElem_mem h1
      have h1 : 0 < xs.count v := List.count_pos_iff.mpr hv
      have h2 : (x :: xs).count v = xs.count v + 1 := by
        rw [List.count_cons, hj]; simp
      omega
    | k + 1, m + 1 =>
      simp only [List.getElem?_cons_succ] at hi hj
      have := ih (by omega : k ≠ m) hi hj
      calc 1 < xs.count v := this
        _ ≤ (x :: xs).count v := List.count_le_count_cons v x xs

theorem flatMap_congr_mem {l : List α} {f g : α → List β}
    (h : ∀ a ∈ l, f a = g a) : l.flatMap f = l.flatMap g := by
  induction l with
  | nil => rfl
  | cons x xs ih =>
    simp only [List.flatMap_cons]
    rw [h x (List.mem_cons_self x xs), ih fun a ha => h a (List.mem_cons_of_mem x ha)]

end Helpers

/-! ## Lemmas about `lookupColCI` -/

theorem lookupColCI_eq_none {fl : String} :
    ∀ {cs : List String}, lookupColCI cs fl = none ↔ ∀ c ∈ cs, pyToLower c ≠ fl := by
  intro cs
  induction cs with
  | nil => simp [lookupColCI]
  | cons c cs ih =>
    simp only [lookupColCI]
    constructor
    · intro h
      cases hrec : lookupColCI cs fl with
      | some j => rw [hrec] at h; exact absurd h (by simp)
      | none =>
        rw [hrec] at h
        intro x hx
        rcases List.mem_cons.mp hx with rfl | hx'
        · intro hlow; rw [if_pos hlow] at h; exact absurd h (by simp)
        · exact (ih.mp hrec) x hx'
    · intro h
      cases hrec : lookupColCI cs fl with
      | some j =>
        exact absurd (ih.mpr fun x hx => h x (List.mem_cons_of_mem c hx))
          (by simp [hrec])
      | none =>
        rw [if_neg (h c (List.mem_cons_self c cs))]

theorem lookupColCI_lt {fl : String} :
    ∀ {cs : List String} {j : Nat}, lookupColCI cs fl = some j → j < cs.length := by
  intro cs
  induction cs with
  | nil => intro j h; simp [lookupColCI] at h
  | cons c cs ih =>
    intro j h
    simp only [lookupColCI] at h
    cases hrec : lookupColCI cs fl with
    | some k =>
      rw [hrec] at h
      obtain rfl : k + 1 = j := by simpa using h
      exact Nat.succ_lt_succ (ih hrec)
    | none =>
      rw [hrec] at h
      by_cases hlow : pyToLower c = fl
      · rw [if_pos hlow] at h
        obtain rfl : 0 = j := by simpa using h
        exact Nat.succ_pos _
      · rw [if_neg hlow] at h; exact absurd h (by simp)

/-! ## C4 — ontology shape validators on the spec's examples -/

/-- C4 counterexample: the claim asserts that the environment-identifier
validator rejects "ENVO:0000446" and "ENVO:0000044"; both carry exactly 7
digits after the optional prefix, so `validate_envo_like` accepts them. -/
theorem shape_validators_counterexample :
    validate_envo_like "ENVO:0000446" = true ∧ validate_envo_like "ENVO:0000044" = true := by
  constructor <;> decide

/-- C4 (amended): the environment-identifier validator accepts
"ENVO:0000446", "ENVO:0000044", "0000446" and "ENVO:0004466" (each has an
optional `ENVO:` prefix and exactly 7 digits), and the taxonomy-identifier
validator accepts "749906" and rejects "74990a". -/
theorem shape_validators_examples :
    validate_envo_like "ENVO:0000446" = true ∧
    validate_envo_like "ENVO:0000044" = true ∧
    validate_envo_like "0000446" = true ∧
    validate_envo_like "ENVO:0004466" = true ∧
    validate_taxid_like "749906" = true ∧
    validate_taxid_like "74990a" = false := by
  refine ⟨?_, ?_, ?_, ?_, ?_, ?_⟩ <;> decide

/-! ## C2 — malformed regex patterns in the schema -/

/-- C2 counterexample: with the malformed pattern `(` on field `a` and the
non-empty value `"x"`, the regex pass reports the cell as *valid* with message
"No regex" — a silent pass, not an invalid issue with an explanatory
message as the claim states. -/
theorem validate_regex_uncompilable_counterexample :
    compileRegex "(" = none ∧
    validate_regex dfBadRx specsBadRx =
      [{ row_index := some 0, field := "a", value := "x", valid := true,
         message := "No regex" }] := by
  constructor <;> decide

/-- C2 (amended): a malformed (non-compilable) non-empty pattern does not
crash validation, but it downgrades the field to "no regex": every issue the
regex pass emits for that field is *valid* (for a non-empty value with
message "No regex"), and every row of a dataset containing the field does get
such a (valid) issue — a silent pass rather than a reported configuration
error. -/
theorem validate_regex_uncompilable (df : DataFrame) (specs : List SpecRow) (f : String)
    (hne : rawRegexOf specs f ≠ "")
    (hcomp : compileRegex (rawRegexOf specs f) = none) :
    (∀ is ∈ validate_regex df specs, is.field = f →
       is.valid = true ∧ (is.value ≠ "" → is.message = "No regex")) ∧
    (f ∈ df.colnames → ∀ i, i < df.rows.length →
       ∃ is ∈ validate_regex df specs,
         is.row_index = some i ∧ is.field = f ∧ is.valid = true) := by
  have hnone : compiledRegexOf specs f = none := by
    cases h : lastSpecRow specs f with
    | none => simp [compiledRegexOf, h]
    | some r =>
      have hne2 : r.regex ≠ "" := by simpa [rawRegexOf, h] using hne
      have hcomp2 : compileRegex r.regex = none := by simpa [rawRegexOf, h] using hcomp
      simp [compiledRegexOf, h, hne2, hcomp2]
  constructor
  · intro is hmem hf
    simp only [validate_regex, List.mem_flatMap] at hmem
    obtain ⟨p, _, q, _, hin⟩ := hmem
    by_cases hs : to_str_for_regex (cellAt p.2 q.1) (kindOf specs q.2.name) = ""
    · rw [if_pos hs] at hin
      simp only [List.mem_singleton] at hin
      subst hin
      exact ⟨rfl, fun hval => absurd hs (by simpa using hval)⟩
    · rw [if_neg hs] at hin
      have hfq : q.2.name = f := by
        revert hin
        cases hx : compiledRegexOf specs q.2.name <;>
          · intro hin; simp only [List.mem_singleton] at hin; subst hin; exact hf
      rw [hfq, hnone] at hin
      simp only [List.mem_singleton] at hin
      subst hin
      exact ⟨rfl, fun _ => rfl⟩
  · intro hcol i hi
    obtain ⟨c, hc, hcf⟩ := List.mem_map.mp hcol
    obtain ⟨jx, hjx, hje⟩ := List.mem_iff_getElem.mp hc
    have hq : (jx, c) ∈ df.cols.enum := by
      rw [List.mk_mem_enum_iff_getElem?]
      rw [List.getElem?_eq_getElem hjx, hje]
    have hp : (i, df.rows.getD i []) ∈ df.rows.enum := enum_mem_of_lt hi []
    by_cases hs : to_str_for_regex (cellAt (df.rows.getD i []) jx) (kindOf specs c.name) = ""
    · refine ⟨{ row_index := some i, field := c.name,
                value := to_str_for_regex (cellAt (df.rows.getD i []) jx) (kindOf specs c.name),
                valid := true, message := "Empty (ok if not required)." }, ?_, rfl, hcf, rfl⟩
      simp only [validate_regex, List.mem_flatMap]
      refine ⟨(i, df.rows.getD i []), hp, (jx, c), hq, ?_⟩
      rw [if_pos hs]
      simp
    · refine ⟨{ row_index := some i, field := c.name,
                value := to_str_for_regex (cellAt (df.rows.getD i []) jx) (kindOf specs c.name),
                valid := true, message := "No regex" }, ?_, rfl, hcf, rfl⟩
      simp only [validate_regex, List.mem_flatMap]
      refine ⟨(i, df.rows.getD i []), hp, (jx, c), hq, ?_⟩
      rw [if_neg hs]
      rw [show compiledRegexOf specs c.name = none from hcf ▸ hnone]
      simp

/-- C2 witness: the hypotheses of `validate_regex_uncompilable` hold for the
concrete malformed schema `specsBadRx`, and the resulting (valid, "No regex")
issue for row 0 exists. -/
theorem validate_regex_uncompilable_witness :
    ∃ is ∈ validate_regex dfBadRx specsBadRx,
      is.row_index = some 0 ∧ is.field = "a" ∧ is.valid = true :=
  (validate_regex_uncompilable dfBadRx specsBadRx "a" (by decide) (by decide)).2
    (by decide) 0 (by decide)

/-! ## C3 — required column entirely absent from the table -/

theorem flatMap_if_singleton {α β : Type} (l : List α) (b : α → Bool) (m : α → β) :
    (l.flatMap fun a => if b a then [] else [m a]) =
      (l.filter fun a => !b a).map m := by
  induction l with
  | nil => rfl
  | cons x xs ih =>
    by_cases hx : b x
    · simp [hx, ih]
    · simp [hx, ih]

/-- Every field of `REQUIRED_FIELDS` is already lowercase. -/
theorem REQUIRED_FIELDS_lower : ∀ x ∈ REQUIRED_FIELDS, pyToLower x = x := by decide

theorem REQUIRED_FIELDS_nodup : REQUIRED_FIELDS.Nodup := by decide

/-- C3 counterexample: on a two-row dataset whose columns do not include the
required column `tax_id`, `validate_required` reports the missing column once
*per non-blank row*, with that row's index; it emits no dataset-level issue
with `row_index = none` at all. -/
theorem validate_required_missing_column_counterexample :
    ((validate_required dfReqMissing []).filter fun is => is.field = "tax_id").length = 2 ∧
    ((validate_required dfReqMissing []).all fun is => is.row_index ≠ none) = true := by
  constructor <;> decide

/-- C3 (amended): a declared required column that is entirely absent from the
table is reported once per non-blank row, as an invalid issue carrying that
row's index ("Required field missing in table schema."); `validate_required`
never emits a dataset-level issue with `row_index = none`. -/
theorem validate_required_missing_column (df : DataFrame) (specs : List SpecRow)
    (fl : String) (hfl : fl ∈ REQUIRED_FIELDS)
    (habs : lookupColCI df.colnames fl = none) :
    ((validate_required df specs).filter fun is => is.field = fl) =
      ((df.rows.enum.filter fun p => !p.2.all isBlankCellNB).map fun p =>
        ({ row_index := some p.1, field := fl, value := "", valid := false,
           message := "Required field missing in table schema." } : Issue)) ∧
    ∀ is ∈ validate_required df specs, is.row_index ≠ none := by
  have hfll : pyToLower fl = fl := REQUIRED_FIELDS_lower fl hfl
  have habs2 : ∀ c ∈ df.colnames, pyToLower c ≠ fl := lookupColCI_eq_none.mp habs
  -- the inner per-field contribution of one (non-blank) row
  set g : Nat × List Cell → String → List Issue := fun p fl2 =>
    match lookupColCI df.colnames fl2 with
    | none =>
      [{ row_index := some p.1, field := fl2, value := "", valid := false,
         message := "Required field missing in table schema." }]
    | some j =>
      let fReal := df.colnames.getD j ""
      let s := to_str_for_regex (cellAt p.2 j) (kindOf specs fReal)
      if s = "" then
        [{ row_index := some p.1, field := fReal, value := s, valid := false,
           message := "Required: must not be empty." }]
      else [] with hg
  have hgdrop : ∀ (p : Nat × List Cell) (x : String), x ≠ fl →
      (g p x).filter (fun is => is.field = fl) = [] := by
    intro p x hx
    rw [hg]
    cases hlk : lookupColCI df.colnames x with
    | none => simp [hlk, hx]
    | some j =>
      have hjlt : j < df.colnames.length := lookupColCI_lt hlk
      have hreal2 : ¬ df.colnames[j]?.getD "" = fl := by
        rw [List.getElem?_eq_getElem hjlt, Option.getD_some]
        intro hEq
        exact habs2 _ (List.getElem_mem hjlt) (by rw [hEq, hfll])
      simp [hlk, hreal2]
  have hgnotin : ∀ (p : Nat × List Cell) (L : List String), fl ∉ L →
      (L.flatMap (g p)).filter (fun is => is.field = fl) = [] := by
    intro p L hnot
    rw [List.filter_flatMap, List.flatMap_eq_nil_iff]
    intro x hx
    exact hgdrop p x fun hEq => hnot (hEq ▸ hx)
  have hgrow : ∀ (p : Nat × List Cell) (L : List String), fl ∈ L → L.Nodup →
      (L.flatMap (g p)).filter (fun is => is.field = fl) =
        [{ row_index := some p.1, field := fl, value := "", valid := false,
           message := "Required field missing in table schema." }] := by
    intro p L
    induction L with
    | nil => intro h; simp at h
    | cons x xs ih =>
      intro hmem hnd
      by_cases hx : x = fl
      · subst hx
        have hnotxs : x ∉ xs := (List.nodup_cons.mp hnd).1
        simp only [List.flatMap_cons, List.filter_append]
        rw [hgnotin p xs hnotxs, hg]
        simp [habs]
      · have hmem2 : fl ∈ xs := by
          rcases List.mem_cons.mp hmem with h | h
          · exact absurd h.symm hx
          · exact h
        simp only [List.flatMap_cons, List.filter_append]
        rw [hgdrop p x hx, ih hmem2 (List.nodup_cons.mp hnd).2]
        rfl
  constructor
  · have hvr : validate_required df specs =
        df.rows.enum.flatMap fun p =>
          if p.2.all isBlankCellNB then [] else REQUIRED_FIELDS.flatMap (g p) := by
      rw [hg]; rfl
    rw [hvr, List.filter_flatMap]
    have hstep : (df.rows.enum.flatMap fun p =>
        List.filter (fun is => is.field = fl)
          (if p.2.all isBlankCellNB then [] else REQUIRED_FIELDS.flatMap (g p))) =
        df.rows.enum.flatMap fun p =>
          if p.2.all isBlankCellNB then []
          else [({ row_index := some p.1, field := fl, value := "", valid := false,
                   message := "Required field missing in table schema." } : Issue)] := by
      apply flatMap_congr_mem
      intro p _
      by_cases hb : p.2.all isBlankCellNB
      · simp [hb]
      · rw [if_neg hb, if_neg hb]
        exact hgrow p REQUIRED_FIELDS hfl REQUIRED_FIELDS_nodup
    rw [hstep]
    exact flatMap_if_singleton _ _ _
  · intro is hmem
    simp only [validate_required, List.mem_flatMap] at hmem
    obtain ⟨p, _, hin⟩ := hmem
    by_cases hb : p.2.all isBlankCellNB
    · rw [if_pos hb] at hin; simp at hin
    · rw [if_neg hb] at hin
      simp only [List.mem_flatMap] at hin
      obtain ⟨x, _, hin2⟩ := hin
      split at hin2
      · simp only [List.mem_singleton] at hin2
        subst hin2; simp
      · rename_i j _
        by_cases hs : to_str_for_regex (cellAt p.2 j) (kindOf specs (df.colnames.getD j "")) = ""
        · rw [if_pos hs] at hin2
          simp only [List.mem_singleton] at hin2
          subst hin2; simp
        · rw [if_neg hs] at hin2
          simp at hin2

/-- C3 witness: the amended statement instantiated on the concrete two-row
dataset with `tax_id` absent. -/
theorem validate_required_missing_column_witness :
    ((validate_required dfReqMissing []).filter fun is => is.field = "tax_id") =
      [{ row_index := some 0, field := "tax_id", value := "", valid := false,
         message := "Required field missing in table schema." },
       { row_index := some 1, field := "tax_id", value := "", valid := false,
         message := "Required field missing in table schema." }] :=
  ((validate_required_missing_column dfReqMissing [] "tax_id" (by decide) (by decide)).1).trans
    (by decide)

/-! ## C5 — the unique-key pass -/

/-- C5: (i) any two distinct rows with equal, non-empty trimmed key values are
both flagged as duplicates; (ii) a row whose trimmed key value is empty never
receives a unique-key issue; (iii) when the key field is absent from the
columns, the pass emits exactly one dataset-level issue with
`row_index = none`. -/
theorem validate_unique_key_spec (df : DataFrame) (key : String) :
    (∀ jx, df.colnames.findIdx? (· = key) = some jx →
      ∀ i j, i < df.rows.length → j < df.rows.length → i ≠ j →
        keyStrCell (cellAt (df.rows.getD i []) jx) = keyStrCell (cellAt (df.rows.getD j []) jx) →
        keyStrCell (cellAt (df.rows.getD i []) jx) ≠ "" →
        ({ row_index := some i, field := key,
           value := keyStrCell (cellAt (df.rows.getD i []) jx), valid := false,
           message := "Duplicate " ++ key ++ ": must be unique." } : Issue)
            ∈ validate_unique_key df key ∧
        ({ row_index := some j, field := key,
           value := keyStrCell (cellAt (df.rows.getD j []) jx), valid := false,
           message := "Duplicate " ++ key ++ ": must be unique." } : Issue)
            ∈ validate_unique_key df key) ∧
    (∀ jx, df.colnames.findIdx? (· = key) = some jx →
      ∀ i, i < df.rows.length → keyStrCell (cellAt (df.rows.getD i []) jx) = "" →
        ∀ is ∈ validate_unique_key df key, is.row_index ≠ some i) ∧
    (df.colnames.findIdx? (· = key) = none →
      validate_unique_key df key =
        [{ row_index := none, field := key, value := "", valid := false,
           message := "Unique key field " ++ key ++ " missing in schema." }]) := by
  refine ⟨?_, ?_, ?_⟩
  · intro jx hjx i j hi hj hij heq hne
    have hvs : ∀ k, k < df.rows.length →
        (df.rows.map fun r => keyStrCell (cellAt r jx)).getD k "" =
          keyStrCell (cellAt (df.rows.getD k []) jx) := by
      intro k hk
      rw [List.getD_eq_getElem?_getD, List.getElem?_map,
        List.getElem?_eq_getElem hk, List.getD_eq_getElem?_getD,
        List.getElem?_eq_getElem hk]
      rfl
    set vs := df.rows.map fun r => keyStrCell (cellAt r jx) with hvsdef
    have hlen : vs.length = df.rows.length := by simp [hvsdef]
    have hvi : vs[i]? = some (keyStrCell (cellAt (df.rows.getD i []) jx)) := by
      rw [List.getElem?_eq_getElem (by omega : i < vs.length)]
      have := hvs i hi
      rw [List.getD_eq_getElem?_getD, List.getElem?_eq_getElem (by omega : i < vs.length)] at this
      simpa using congrArg some this
    have hvj : vs[j]? = some (keyStrCell (cellAt (df.rows.getD j []) jx)) := by
      rw [List.getElem?_eq_getElem (by omega : j < vs.length)]
      have := hvs j hj
      rw [List.getD_eq_getElem?_getD, List.getElem?_eq_getElem (by omega : j < vs.length)] at this
      simpa using congrArg some this
    have hcount : 1 < vs.count (keyStrCell (cellAt (df.rows.getD i []) jx)) :=
      two_le_count_of_pair hij hvi (heq ▸ hvj)
    have hmain : validate_unique_key df key =
        vs.enum.filterMap fun p =>
          if p.2 ≠ "" ∧ 1 < vs.count p.2 then
            some { row_index := some p.1, field := key, value := p.2, valid := false,
                   message := "Duplicate " ++ key ++ ": must be unique." }
          else none := by
      unfold validate_unique_key
      rw [hjx]
    constructor
    · rw [hmain]
      apply List.mem_filterMap.mpr
      refine ⟨(i, keyStrCell (cellAt (df.rows.getD i []) jx)), ?_, ?_⟩
      · rw [List.mk_mem_enum_iff_getElem?]; exact hvi
      · rw [if_pos ⟨hne, hcount⟩]
    · rw [hmain]
      apply List.mem_filterMap.mpr
      refine ⟨(j, keyStrCell (cellAt (df.rows.getD j []) jx)), ?_, ?_⟩
      · rw [List.mk_mem_enum_iff_getElem?]; exact hvj
      · rw [if_pos ⟨heq ▸ hne, heq ▸ hcount⟩]
  · intro jx hjx i hi hemp is hmem hidx
    unfold validate_unique_key at hmem
    rw [hjx] at hmem
    obtain ⟨p, hpmem, hpeq⟩ := List.mem_filterMap.mp hmem
    by_cases hc : p.2 ≠ "" ∧
        1 < (df.rows.map fun r => keyStrCell (cellAt r jx)).count p.2
    · rw [if_pos hc] at hpeq
      obtain rfl := Option.some_inj.mp hpeq
      have hp1 : p.1 = i := by simpa using hidx
      have hpv : (df.rows.map fun r => keyStrCell (cellAt r jx))[p.1]? = some p.2 := by
        rw [← List.mk_mem_enum_iff_getElem?]
        exact hpmem
      rw [hp1, List.getElem?_map, List.getElem?_eq_getElem hi] at hpv
      have hvv : keyStrCell (cellAt df.rows[i] jx) = p.2 := by simpa using hpv
      apply hc.1
      rw [← hvv, ← hemp]
      congr 1
      rw [List.getD_eq_getElem?_getD, List.getElem?_eq_getElem hi]
      rfl
    · rw [if_neg hc] at hpeq
      exact absurd hpeq (by simp)
  · intro hnone
    unfold validate_unique_key
    rw [hnone]

/-- C5 witness: on the concrete dataset `dfDupKey`, rows 0 and 1 (trimmed key
"A") are both flagged and no issue points at row 2 (empty key). -/
theorem validate_unique_key_spec_witness :
    ({ row_index := some 0, field := "project name",
       value := keyStrCell (cellAt (dfDupKey.rows.getD 0 []) 0), valid := false,
       message := "Duplicate " ++ "project name" ++ ": must be unique." } : Issue)
        ∈ validate_unique_key dfDupKey "project name" ∧
    ({ row_index := some 1, field := "project name",
       value := keyStrCell (cellAt (dfDupKey.rows.getD 1 []) 0), valid := false,
       message := "Duplicate " ++ "project name" ++ ": must be unique." } : Issue)
        ∈ validate_unique_key dfDupKey "project name" ∧
    ∀ is ∈ validate_unique_key dfDupKey "project name", is.row_index ≠ some 2 := by
  obtain ⟨h1, h2, _⟩ := validate_unique_key_spec dfDupKey "project name"
  have hd := h1 0 (by decide) 0 1 (by decide) (by decide) (by decide) (by decide) (by decide)
  exact ⟨hd.1, hd.2, h2 0 (by decide) 2 (by decide) (by decide)⟩

/-! ## C6 and C7 — the normalizer -/

theorem blankCell_blank (c : Col) : isBlankCell (blankCell c) = true := by
  unfold blankCell
  split_ifs <;> decide

theorem blankRow_blank (cols : List Col) : _is_blank_row (blankRow cols) = true := by
  unfold _is_blank_row blankRow
  rw [List.all_eq_true]
  intro x hx
  obtain ⟨c, _, rfl⟩ := List.mem_map.mp hx
  exact blankCell_blank c

theorem coerceDeleteCell_nonblank {c : Col} {v : Cell} (h : isBlankCell v = false) :
    isBlankCell (coerceDeleteCell c v) = false := by
  unfold coerceDeleteCell
  by_cases hdel : c.name = DELETE_COL
  · rw [if_pos hdel]
    have hb : cellToBool (fillnaFalse v) = true := by
      cases v with
      | str s =>
        have hs : s ≠ "" := by
          intro hEq; subst hEq
          exact absurd h (by decide)
        simp [fillnaFalse, cellToBool, Cell.isna, hs]
      | dateNaT => exact absurd h (by decide)
      | dateVal s => simp [fillnaFalse, cellToBool, Cell.isna]
      | boolC b =>
        cases b with
        | false => exact absurd h (by decide)
        | true => simp [fillnaFalse, cellToBool, Cell.isna]
    rw [hb]
    decide
  · rw [if_neg hdel]
    exact h

theorem coerceRow_nil_cols : ∀ (r : List Cell), coerceRow [] r = r := by
  intro r
  induction r with
  | nil => rfl
  | cons v vs ih => simp [coerceRow, ih]

theorem coerceRow_nonblank : ∀ (cols : List Col) (r : List Cell),
    _is_blank_row r = false → _is_blank_row (coerceRow cols r) = false := by
  intro cols r
  induction r generalizing cols with
  | nil => intro h; simp [_is_blank_row] at h
  | cons v vs ih =>
    intro h
    cases cols with
    | nil => rw [coerceRow_nil_cols]; exact h
    | cons c cs =>
      simp only [_is_blank_row, List.all_cons, Bool.and_eq_false_iff] at h
      simp only [coerceRow, _is_blank_row, List.all_cons, Bool.and_eq_false_iff]
      rcases h with h | h
      · exact Or.inl (coerceDeleteCell_nonblank h)
      · exact Or.inr (ih cs h)

theorem pad_nonblank {r : List Cell} (h : _is_blank_row r = false) :
    _is_blank_row (r ++ [Cell.boolC false]) = false := by
  simp only [_is_blank_row, List.all_append] at *
  simp [h]

theorem coerceDeleteCell_idem (c : Col) (v : Cell) :
    coerceDeleteCell c (coerceDeleteCell c v) = coerceDeleteCell c v := by
  unfold coerceDeleteCell
  by_cases hdel : c.name = DELETE_COL
  · simp [hdel, fillnaFalse, Cell.isna, cellToBool]
  · simp [hdel]

theorem coerceRow_idem : ∀ (cols : List Col) (r : List Cell),
    coerceRow cols (coerceRow cols r) = coerceRow cols r := by
  intro cols r
  induction r generalizing cols with
  | nil => cases cols <;> rfl
  | cons v vs ih =>
    cases cols with
    | nil => rw [coerceRow_nil_cols, coerceRow_nil_cols]
    | cons c cs => simp [coerceRow, coerceDeleteCell_idem, ih]

/-- C6 counterexample: the claim says an interior fully blank row followed by
non-blank rows is preserved in place; on `dfInteriorBlank` (blank row 0,
non-blank row 1) the normalizer deletes the interior blank row: the result has
2 rows (not 3), starting with the non-blank row. -/
theorem ensure_tail_blank_counterexample :
    _is_blank_row [Cell.str "", Cell.boolC false] = true ∧
    dfInteriorBlank.rows =
      [[Cell.str "", Cell.boolC false], [Cell.str "x", Cell.boolC false]] ∧
    (ensure_tail_blank dfInteriorBlank).rows =
      [[Cell.str "x", Cell.boolC false], [Cell.str "", Cell.boolC false]] := by
  refine ⟨?_, ?_, ?_⟩ <;> decide

/-- C6 (amended): the normalizer removes *every* fully blank row — interior
ones included — and then appends exactly one freshly-typed blank row
(`blankCell`: null-date for date columns, `False` for the delete column, empty
string otherwise); hence the result has one row per non-blank input row plus
one, its last row is the typed blank row, and no earlier row is blank. -/
theorem ensure_tail_blank_spec (df : DataFrame) :
    (ensure_tail_blank df).rows.length =
      (df.rows.countP fun r => !_is_blank_row r) + 1 ∧
    (ensure_tail_blank df).rows.getLast? =
      some (blankRow (ensure_tail_blank df).cols) ∧
    ∀ r ∈ (ensure_tail_blank df).rows.dropLast, _is_blank_row r = false := by
  unfold ensure_tail_blank
  by_cases hdel : df.cols.any fun c => c.name = DELETE_COL
  · simp only [hdel, if_true]
    refine ⟨?_, ?_, ?_⟩
    · simp [List.countP_eq_length_filter]
    · simp [List.getLast?_concat]
    · intro r hr
      rw [List.dropLast_concat] at hr
      obtain ⟨r0, hr0, rfl⟩ := List.mem_map.mp hr
      exact coerceRow_nonblank _ _ (by simpa using (List.mem_filter.mp hr0).2)
  · simp only [hdel, if_false]
    refine ⟨?_, ?_, ?_⟩
    · simp [List.countP_eq_length_filter]
    · simp [List.getLast?_concat]
    · intro r hr
      rw [List.dropLast_concat] at hr
      obtain ⟨r1, hr1, rfl⟩ := List.mem_map.mp hr
      obtain ⟨r0, hr0, rfl⟩ := List.mem_map.mp hr1
      exact coerceRow_nonblank _ _
        (pad_nonblank (by simpa using (List.mem_filter.mp hr0).2))

/-- C7 counterexample: `dfWhitespaceTail` ends in exactly one fully blank row
(whitespace) and contains no other blank row, yet renormalizing does not
return "the same trailing blank row": the whitespace blank is replaced by the
freshly-typed blank (row count is preserved). -/
theorem ensure_tail_blank_idem_counterexample :
    _is_blank_row [Cell.str " ", Cell.boolC false] = true ∧
    dfWhitespaceTail.rows = [[Cell.str " ", Cell.boolC false]] ∧
    (ensure_tail_blank dfWhitespaceTail).rows = [[Cell.str "", Cell.boolC false]] ∧
    (ensure_tail_blank dfWhitespaceTail).rows.getLast? ≠ dfWhitespaceTail.rows.getLast? := by
  refine ⟨?_, ?_, ?_, ?_⟩ <;> decide

/-- C7 (amended): normalization is idempotent on normalizer outputs: for every
dataframe, `ensure_tail_blank (ensure_tail_blank df) = ensure_tail_blank df`
exactly — same row count, same non-blank rows in order, same trailing blank.
An "already normalized" dataframe must carry the *canonical* typed trailing
blank (and a boolean delete column); a merely-blank trailing row (e.g.
whitespace) is instead replaced by the canonical blank. -/
theorem ensure_tail_blank_idem (df : DataFrame) :
    ensure_tail_blank (ensure_tail_blank df) = ensure_tail_blank df := by
  have hout : ∃ (C : List Col) (R : List (List Cell)),
      ensure_tail_blank df = ⟨C, R ++ [blankRow C]⟩ ∧
      (C.any fun c => c.name = DELETE_COL) = true ∧
      (∀ r ∈ R, _is_blank_row r = false) ∧
      R.map (coerceRow C) = R := by
    by_cases hdel : (df.cols.any fun c => c.name = DELETE_COL) = true
    · refine ⟨df.cols,
        (df.rows.filter fun r => !_is_blank_row r).map (coerceRow df.cols),
        by simp [ensure_tail_blank, hdel], hdel, ?_, ?_⟩
      · intro r hr
        obtain ⟨r0, hr0, rfl⟩ := List.mem_map.mp hr
        exact coerceRow_nonblank _ _ (by simpa using (List.mem_filter.mp hr0).2)
      · rw [List.map_map]
        exact List.map_congr_left fun r _ => coerceRow_idem _ r
    · refine ⟨df.cols ++ [{ name := DELETE_COL, isDate := false }],
        ((df.rows.filter fun r => !_is_blank_row r).map fun r => r ++ [Cell.boolC false]).map
          (coerceRow (df.cols ++ [{ name := DELETE_COL, isDate := false }])),
        by simp [ensure_tail_blank, hdel], ?_, ?_, ?_⟩
      · rw [List.any_append]
        simp
      · intro r hr
        obtain ⟨r1, hr1, rfl⟩ := List.mem_map.mp hr
        obtain ⟨r0, hr0, rfl⟩ := List.mem_map.mp hr1
        exact coerceRow_nonblank _ _
          (pad_nonblank (by simpa using (List.mem_filter.mp hr0).2))
      · rw [List.map_map]
        exact List.map_congr_left fun r _ => coerceRow_idem _ r
  obtain ⟨C, R, hEq, h1, h2, h3⟩ := hout
  rw [hEq]
  have hfil : (R ++ [blankRow C]).filter (fun r => !_is_blank_row r) = R := by
    rw [List.filter_append]
    have hR : R.filter (fun r => !_is_blank_row r) = R :=
      List.filter_eq_self.mpr fun r hr => by simp [h2 r hr]
    rw [hR]
    simp [blankRow_blank]
  show ensure_tail_blank { cols := C, rows := R ++ [blankRow C] } =
    { cols := C, rows := R ++ [blankRow C] }
  unfold ensure_tail_blank
  simp only [h1, if_true, hfil, h3]

/-! ## C8 — batch splitting of the submission builder -/

theorem ceil_div_shift {n bs : Nat} (hn : 0 < n) (hbs : 0 < bs) :
    (n - bs + bs - 1) / bs = (n - 1) / bs := by
  by_cases h : bs ≤ n
  · congr 1
    omega
  · have h0 : n - bs = 0 := by omega
    rw [h0]
    rw [Nat.div_eq_of_lt (by omega : 0 + bs - 1 < bs),
      Nat.div_eq_of_lt (by omega : n - 1 < bs)]

theorem batchOffsets_pos {n bs : Nat} (hn : 0 < n) (hbs : 0 < bs) :
    batchOffsets n bs = 0 :: (batchOffsets (n - bs) bs).map (· + bs) := by
  unfold batchOffsets
  have hceil : (n + bs - 1) / bs = (n - 1) / bs + 1 := by
    have : n + bs - 1 = (n - 1) + bs := by omega
    rw [this, Nat.add_div_right _ hbs]
  rw [hceil, List.range_succ_eq_map]
  simp only [List.map_cons, Nat.zero_mul, List.map_map, ceil_div_shift hn hbs]
  congr 1
  apply List.map_congr_left
  intro k _
  simp [Nat.succ_mul]

theorem buildBatches_nil {α : Type} (bs : Nat) (hbs : 0 < bs) :
    buildBatches ([] : List α) bs = [] := by
  unfold buildBatches batchOffsets
  simp [Nat.div_eq_of_lt (by omega : bs - 1 < bs)]

theorem buildBatches_cons {α : Type} (rows : List α) (bs : Nat)
    (hn : 0 < rows.length) (hbs : 0 < bs) :
    buildBatches rows bs = rows.take bs :: buildBatches (rows.drop bs) bs := by
  unfold buildBatches
  rw [batchOffsets_pos hn hbs, List.length_drop]
  simp only [List.map_cons, List.map_map]
  congr 1
  have hpt : ∀ a ∈ batchOffsets (rows.length - bs) bs,
      ((fun off => dfSlice rows off bs) ∘ fun x => x + bs) a =
        dfSlice (List.drop bs rows) a bs := by
    intro a _
    simp only [Function.comp_apply, dfSlice, List.drop_drop]
    rw [Nat.add_comm a bs]
  exact List.map_congr_left hpt

/-- C8: for a positive batch size, `build_and_submit`'s batching partitions
the rows exactly — concatenating the batches in order restores the table (no
row skipped or reordered), the number of batches (= XML documents) is
`ceil(n / bs)`, and batch `i` holds `min bs (n - i*bs)` rows (full batches,
with a natural-size partial batch at the end). -/
theorem buildBatches_spec {α : Type} (rows : List α) (bs : Nat) (hbs : 0 < bs) :
    (buildBatches rows bs).flatten = rows ∧
    (buildBatches rows bs).length = (rows.length + bs - 1) / bs ∧
    ∀ i b, (buildBatches rows bs)[i]? = some b →
      b.length = min bs (rows.length - i * bs) := by
  refine ⟨?_, ?_, ?_⟩
  · have hflat : ∀ (k : Nat) (l : List α), l.length ≤ k →
        (buildBatches l bs).flatten = l := by
      intro k
      induction k with
      | zero =>
        intro l hl
        obtain rfl : l = [] := List.length_eq_zero.mp (Nat.le_zero.mp hl)
        rw [buildBatches_nil bs hbs]
        rfl
      | succ k ih =>
        intro l hl
        by_cases hnil : l = []
        · subst hnil
          rw [buildBatches_nil bs hbs]
          rfl
        · have hpos : 0 < l.length := List.length_pos.mpr hnil
          rw [buildBatches_cons l bs hpos hbs, List.flatten_cons,
            ih (l.drop bs) (by rw [List.length_drop]; omega)]
          exact List.take_append_drop bs l
    exact hflat rows.length rows (Nat.le_refl _)
  · unfold buildBatches batchOffsets
    simp
  · intro i b hib
    unfold buildBatches batchOffsets at hib
    rw [List.getElem?_map, List.getElem?_map] at hib
    cases hri : (List.range ((rows.length + bs - 1) / bs))[i]? with
    | none => rw [hri] at hib; exact absurd hib (by simp)
    | some v =>
      rw [hri] at hib
      obtain ⟨hlt, hv⟩ := List.getElem?_eq_some_iff.mp hri
      rw [List.length_range] at hlt
      have hvi : v = i := by rw [← hv, List.getElem_range]
      subst hvi
      have hb : b = dfSlice rows (v * bs) bs := by
        simpa using hib.symm
      subst hb
      simp [dfSlice, List.length_take, List.length_drop, Nat.min_def]

set_option maxRecDepth 16384 in
/-- C8 witness: 1500 rows with batch size 1000 produce exactly 2 documents,
holding 1000 and 500 samples, in original row order. -/
theorem buildBatches_spec_witness :
    (buildBatches (List.range 1500) 1000).flatten = List.range 1500 ∧
    (buildBatches (List.range 1500) 1000).length = 2 ∧
    (buildBatches (List.range 1500) 1000).map List.length = [1000, 500] := by
  obtain ⟨h1, h2, _⟩ := buildBatches_spec (List.range 1500) 1000 (by decide)
  refine ⟨h1, h2.trans (by norm_num), by decide⟩

/-! ## C9 — chromosome-list synthesis from the fasta scan -/

theorem scanFastaAux_no_header :
    ∀ (ls : List String) (cnt : Nat) (lh : Option String) (used : Nat),
      ls.countP isHeaderLine = 0 →
      scanFastaAux ls cnt lh used =
        { seq_count := cnt, last_header := lh, consumed := used + ls.length } := by
  intro ls
  induction ls with
  | nil => intro cnt lh used _; simp [scanFastaAux]
  | cons l ls ih =>
    intro cnt lh used hcnt
    rw [List.countP_cons] at hcnt
    have hl : isHeaderLine l = false := by
      by_cases h : isHeaderLine l
      · rw [h] at hcnt; simp at hcnt
      · simpa using h
    have hrest : ls.countP isHeaderLine = 0 := by
      rw [hl] at hcnt; simpa using hcnt
    simp only [scanFastaAux, hl, Bool.false_eq_true, if_false]
    rw [ih cnt lh (used + 1) hrest]
    simp only [List.length_cons]
    congr 1
    omega

theorem scanFastaAux_count :
    ∀ (ls : List String) (cnt : Nat) (lh : Option String) (used : Nat),
      cnt ≤ 1 →
      (scanFastaAux ls cnt lh used).seq_count = min (cnt + ls.countP isHeaderLine) 2 := by
  intro ls
  induction ls with
  | nil =>
    intro cnt lh used hcnt
    simp only [scanFastaAux, List.countP_nil, Nat.add_zero]
    omega
  | cons l ls ih =>
    intro cnt lh used hcnt
    rw [List.countP_cons]
    by_cases hl : isHeaderLine l
    · simp only [scanFastaAux, hl, if_true]
      by_cases hc1 : 1 < cnt + 1
      · rw [if_pos hc1]
        have hcnt1 : cnt = 1 := by omega
        subst hcnt1
        simp only
        have : 0 < ls.countP isHeaderLine + 1 := by omega
        omega
      · rw [if_neg hc1]
        rw [ih (cnt + 1) _ _ (by omega)]
        have hcnt0 : cnt = 0 := by omega
        subst hcnt0
        simp [hl]
        omega
    · have hlf : isHeaderLine l = false := by simpa using hl
      simp only [scanFastaAux, hlf, Bool.false_eq_true, if_false]
      rw [ih cnt _ _ hcnt]
      simp

theorem scanFastaAux_single_header :
    ∀ (ls : List String) (lh : Option String) (used : Nat) (l : String),
      ls.countP isHeaderLine = 1 → ls.find? isHeaderLine = some l →
      (scanFastaAux ls 0 lh used).last_header = some (pyStrip (dropFirstChar l)) := by
  intro ls
  induction ls with
  | nil => intro lh used l h; simp at h
  | cons x xs ih =>
    intro lh used l hcnt hfind
    rw [List.countP_cons] at hcnt
    by_cases hx : isHeaderLine x
    · have hxeq : x = l := by
        rw [List.find?_cons_of_pos _ hx] at hfind
        simpa using hfind
      subst hxeq
      have hrest : xs.countP isHeaderLine = 0 := by
        rw [hx] at hcnt; simpa using hcnt
      simp only [scanFastaAux, hx, if_true]
      rw [if_neg (by omega : ¬ 1 < 0 + 1)]
      rw [scanFastaAux_no_header xs _ _ _ hrest]
    · have hxf : isHeaderLine x = false := by simpa using hx
      rw [List.find?_cons_of_neg _ hx] at hfind
      have hrest : xs.countP isHeaderLine = 1 := by
        rw [hxf] at hcnt; simpa using hcnt
      simp only [scanFastaAux, hxf, Bool.false_eq_true, if_false]
      exact ih _ _ l hrest hfind

theorem countP_cons_header {x : String} (hx : isHeaderLine x = true) (l : List String) :
    (x :: l).countP isHeaderLine = l.countP isHeaderLine + 1 := by
  rw [List.countP_cons, hx]
  simp

theorem countP_cons_nonheader {x : String} (hx : isHeaderLine x = false) (l : List String) :
    (x :: l).countP isHeaderLine = l.countP isHeaderLine := by
  rw [List.countP_cons, hx]
  simp

theorem scanFastaAux_consumed :
    ∀ (ls : List String) (cnt : Nat) (lh : Option String) (used : Nat),
      cnt ≤ 1 → 2 ≤ cnt + ls.countP isHeaderLine →
      ∃ k, 1 ≤ k ∧ k ≤ ls.length ∧
        (scanFastaAux ls cnt lh used).consumed = used + k ∧
        (ls.take k).countP isHeaderLine = 2 - cnt ∧
        (ls.take (k - 1)).countP isHeaderLine < 2 - cnt := by
  intro ls
  induction ls with
  | nil => intro cnt lh used hcnt h2; simp at h2; omega
  | cons x xs ih =>
    intro cnt lh used hcnt h2
    by_cases hx : isHeaderLine x = true
    · by_cases hc1 : cnt = 1
      · subst hc1
        refine ⟨1, by omega, by simp, ?_, ?_, ?_⟩
        · simp [scanFastaAux, hx]
        · rw [List.take_succ_cons, List.take_zero, countP_cons_header hx]
          simp
        · simp
      · have hc0 : cnt = 0 := by omega
        subst hc0
        have h2x : 2 ≤ 1 + xs.countP isHeaderLine := by
          rw [countP_cons_header hx] at h2
          omega
        obtain ⟨k, hk1, hklen, hkcons, hktake, hkprev⟩ :=
          ih 1 (some (pyStrip (dropFirstChar x))) (used + 1) (by omega) h2x
        refine ⟨k + 1, by omega, by simp; omega, ?_, ?_, ?_⟩
        · simp only [scanFastaAux, hx, if_true]
          rw [if_neg (by omega : ¬ 1 < 0 + 1)]
          have hkc2 : (scanFastaAux xs (0 + 1) (some (pyStrip (dropFirstChar x)))
              (used + 1)).consumed = used + 1 + k := by
            simpa using hkcons
          rw [hkc2]
          omega
        · rw [List.take_succ_cons, countP_cons_header hx]
          omega
        · have hs1 : k + 1 - 1 = k := by omega
          rw [hs1]
          rcases Nat.eq_or_lt_of_le hk1 with hk | hk
          · rw [← hk, List.take_succ_cons, List.take_zero, countP_cons_header hx]
            simp
          · have hkk : k - 1 + 1 = k := by omega
            rw [← hkk, List.take_succ_cons, countP_cons_header hx]
            omega
    · have hxf : isHeaderLine x = false := by simpa using hx
      have h2x : 2 ≤ cnt + xs.countP isHeaderLine := by
        rw [countP_cons_nonheader hxf] at h2
        omega
      obtain ⟨k, hk1, hklen, hkcons, hktake, hkprev⟩ := ih cnt lh (used + 1) hcnt h2x
      refine ⟨k + 1, by omega, by simp; omega, ?_, ?_, ?_⟩
      · simp only [scanFastaAux, hxf, Bool.false_eq_true, if_false]
        rw [hkcons]
        omega
      · rw [List.take_succ_cons, countP_cons_nonheader hxf, hktake]
      · have hsk : k + 1 - 1 = k - 1 + 1 := by omega
        rw [hsk, List.take_succ_cons, countP_cons_nonheader hxf]
        exact hkprev

/-- C9: if the fasta file holds exactly one sequence record, the scan counts
1, the manifest carries a `CHROMOSOME_LIST` entry and the synthesized
side-file tags that record (its trimmed header) as a chromosome; if it holds
two or more records, the scan stops right after confirming the second header
(the consumed prefix holds exactly 2 headers, and all but its final line hold
at most 1), and the manifest has no `CHROMOSOME_LIST` entry. -/
theorem scanFasta_manifest_spec (lines : List String)
    (project sample_acc aliasName cov prog plat fasta_path chrom_path : String) :
    (lines.countP isHeaderLine = 1 →
      (scanFasta lines).seq_count = 1 ∧
      (buildManifest project sample_acc aliasName cov prog plat fasta_path
        chrom_path lines).chromosome_list = some chrom_path ∧
      ∀ l, lines.find? isHeaderLine = some l →
        chromosomeListContent aliasName (scanFasta lines) =
          some (pyStrip (dropFirstChar l) ++ "\t" ++ aliasName ++ "\tchromosome")) ∧
    (2 ≤ lines.countP isHeaderLine →
      (scanFasta lines).seq_count = 2 ∧
      (buildManifest project sample_acc aliasName cov prog plat fasta_path
        chrom_path lines).chromosome_list = none ∧
      (lines.take (scanFasta lines).consumed).countP isHeaderLine = 2 ∧
      (lines.take ((scanFasta lines).consumed - 1)).countP isHeaderLine ≤ 1) := by
  constructor
  · intro h1
    have hcount : (scanFasta lines).seq_count = 1 := by
      unfold scanFasta
      rw [scanFastaAux_count lines 0 none 0 (by omega), h1]
      omega
    refine ⟨hcount, ?_, ?_⟩
    · simp [buildManifest, hcount]
    · intro l hfind
      have hlast : (scanFasta lines).last_header = some (pyStrip (dropFirstChar l)) :=
        scanFastaAux_single_header lines none 0 l h1 hfind
      simp [chromosomeListContent, hcount, hlast]
  · intro h2
    have hcount : (scanFasta lines).seq_count = 2 := by
      unfold scanFasta
      rw [scanFastaAux_count lines 0 none 0 (by omega)]
      omega
    refine ⟨hcount, ?_, ?_, ?_⟩
    · simp [buildManifest, hcount]
    · obtain ⟨k, _, _, hkcons, hktake, _⟩ :=
        scanFastaAux_consumed lines 0 none 0 (by omega) (by omega)
      have hck : (scanFasta lines).consumed = k := by
        unfold scanFasta
        rw [hkcons]
        omega
      rw [hck]
      simpa using hktake
    · obtain ⟨k, _, _, hkcons, _, hkprev⟩ :=
        scanFastaAux_consumed lines 0 none 0 (by omega) (by omega)
      have hck : (scanFasta lines).consumed = k := by
        unfold scanFasta
        rw [hkcons]
        omega
      rw [hck]
      omega

/-- C9 witness: concrete single-record and two-record files. -/
theorem scanFasta_manifest_spec_witness :
    ((scanFasta fastaOneRecord).seq_count = 1 ∧
      (buildManifest "PRJ1" "SAMEA1" "s1" "30" "spades" "illumina" "s1.fasta.gz"
        "chrlist.gz" fastaOneRecord).chromosome_list = some "chrlist.gz") ∧
    ((scanFasta fastaTwoRecords).seq_count = 2 ∧
      (buildManifest "PRJ1" "SAMEA2" "s2" "30" "spades" "illumina" "s2.fasta.gz"
        "chrlist.gz" fastaTwoRecords).chromosome_list = none) := by
  constructor
  · have h := (scanFasta_manifest_spec fastaOneRecord "PRJ1" "SAMEA1" "s1" "30"
      "spades" "illumina" "s1.fasta.gz" "chrlist.gz").1 (by decide)
    exact ⟨h.1, h.2.1⟩
  · have h := (scanFasta_manifest_spec fastaTwoRecords "PRJ1" "SAMEA2" "s2" "30"
      "spades" "illumina" "s2.fasta.gz" "chrlist.gz").2 (by decide)
    exact ⟨h.1, h.2.1⟩

/-! ## C10 — the CLI validator -/

/-- C10: (i) a field definition whose column is entirely absent from the
metadata file contributes nothing: dropping it from the definition map leaves
`validate_dataframe` unchanged (in particular an absent mandatory column never
causes a raise by itself); (ii) the validator returns normally exactly when no
per-column error was collected; (iii) when it raises, the single error value
aggregates every collected per-column error, joined with newlines. -/
theorem validate_dataframe_spec (df : CliFrame) (fdefs : List (String × CliField)) :
    (∀ f fd, (∀ col ∈ df.cols, col.1 ≠ f) →
      validate_dataframe df ((f, fd) :: fdefs) = validate_dataframe df fdefs) ∧
    (validate_dataframe df fdefs = Except.ok () ↔ collectErrors df fdefs = []) ∧
    (∀ e, validate_dataframe df fdefs = Except.error e →
      collectErrors df fdefs ≠ [] ∧
      e = String.intercalate "\n" (collectErrors df fdefs)) := by
  refine ⟨?_, ?_, ?_⟩
  · intro f fd habs
    have hskip : collectErrors df ((f, fd) :: fdefs) = collectErrors df fdefs := by
      unfold collectErrors
      apply flatMap_congr_mem
      intro col hcol
      have hfind : lookupFd ((f, fd) :: fdefs) col.1 = lookupFd fdefs col.1 := by
        unfold lookupFd
        rw [List.find?_cons_of_neg]
        simp only [decide_eq_true_eq]
        exact fun hEq => habs col hcol (by simpa using hEq.symm)
      rw [hfind]
    unfold validate_dataframe
    rw [hskip]
  · unfold validate_dataframe
    cases h : collectErrors df fdefs with
    | nil => simp
    | cons e es => simp
  · intro e
    unfold validate_dataframe
    cases h : collectErrors df fdefs with
    | nil => intro hcontra; exact absurd hcontra (by simp)
    | cons x xs =>
      intro hErr
      refine ⟨by simp, ?_⟩
      have := Except.error.inj hErr.symm
      exact this

/-- C10 witness: the field-definition list declares the mandatory field
`sample_name` whose column is absent from `dfCli`; dropping it changes
nothing, and the run proceeds without raising. -/
theorem validate_dataframe_spec_witness :
    validate_dataframe dfCli [("sample_name", fdMandatory)] =
      validate_dataframe dfCli [] ∧
    validate_dataframe dfCli [("sample_name", fdMandatory)] = Except.ok () := by
  have h1 := (validate_dataframe_spec dfCli []).1 "sample_name" fdMandatory
    (by intro col hcol; fin_cases hcol; decide)
  refine ⟨h1, h1.trans ?_⟩
  exact (validate_dataframe_spec dfCli []).2.1.mpr (by decide)

/-! ## C1 — the export gate versus the validation report -/

/-- Every issue of the report that carries a row index points inside the
dataframe (all row indices come from enumerating the rows). -/
theorem fullReport_row_lt (df : DataFrame) (specs : List SpecRow) :
    ∀ is ∈ fullReport df specs, ∀ i, is.row_index = some i →
      i < df.rows.length := by
  intro is hmem i hidx
  unfold fullReport at hmem
  simp only [List.mem_append] at hmem
  rcases hmem with (((hm | hm) | hm) | hm) | hm
  · -- validate_required
    simp only [validate_required, List.mem_flatMap] at hm
    obtain ⟨p, hp, hin⟩ := hm
    have hlt := enum_fst_lt hp
    by_cases hb : p.2.all isBlankCellNB
    · rw [if_pos hb] at hin; simp at hin
    · rw [if_neg hb] at hin
      simp only [List.mem_flatMap] at hin
      obtain ⟨x, _, hin2⟩ := hin
      split at hin2
      · simp only [List.mem_singleton] at hin2
        subst hin2
        simp only [Option.some.injEq] at hidx
        omega
      · split at hin2
        · simp only [List.mem_singleton] at hin2
          subst hin2
          simp only [Option.some.injEq] at hidx
          omega
        · simp at hin2
  · -- validate_regex
    simp only [validate_regex, List.mem_flatMap] at hm
    obtain ⟨p, hp, q, _, hin⟩ := hm
    have hlt := enum_fst_lt hp
    split at hin
    · simp only [List.mem_singleton] at hin
      subst hin
      simp only [Option.some.injEq] at hidx
      omega
    · split at hin <;>
        · simp only [List.mem_singleton] at hin
          subst hin
          simp only [Option.some.injEq] at hidx
          omega
  · -- validate_unique_key
    unfold validate_unique_key at hm
    split at hm
    · simp only [List.mem_singleton] at hm
      subst hm
      simp at hidx
    · obtain ⟨p, hp, hpeq⟩ := List.mem_filterMap.mp hm
      have hlt := enum_fst_lt hp
      split at hpeq
      · obtain rfl := Option.some_inj.mp hpeq
        simp only [Option.some.injEq] at hidx
        simp only [List.length_map] at hlt
        omega
      · exact absurd hpeq (by simp)
  · -- validate_ena_checklist
    unfold validate_ena_checklist at hm
    split at hm
    · simp only [List.mem_singleton] at hm
      subst hm
      simp at hidx
    · simp only [List.mem_flatMap] at hm
      obtain ⟨p, hp, hin⟩ := hm
      have hlt := enum_fst_lt hp
      split at hin
      · simp at hin
      · split at hin
        · simp at hin
        · simp only [List.mem_singleton] at hin
          subst hin
          simp only [Option.some.injEq] at hidx
          omega
  · -- validate_semantics
    simp only [validate_semantics, List.mem_flatMap] at hm
    obtain ⟨fp, _, hin⟩ := hm
    split at hin
    · simp at hin
    · simp only [List.mem_flatMap] at hin
      obtain ⟨p, hp, hin2⟩ := hin
      have hlt := enum_fst_lt hp
      split at hin2
      · simp at hin2
      · split at hin2
        · simp at hin2
        · simp only [List.mem_singleton] at hin2
          subst hin2
          simp only [Option.some.injEq] at hidx
          omega

/-- C1 counterexample: on `dfGate` (one data row; no key field, no
ENA-CHECKLIST column) the full report contains invalid entries — among them
dataset-level issues with `row_index = none` — yet the export gate opens: the
gate tests only the per-cell invalid mask, which no such issue can reach. -/
theorem exportGate_counterexample :
    exportGate dfGate specsGate = true ∧
    ((fullReport dfGate specsGate).any fun is => !is.valid) = true ∧
    ((fullReport dfGate specsGate).any fun is =>
      !is.valid && is.row_index = none) = true := by
  refine ⟨?_, ?_, ?_⟩ <;> decide

/-- C1 (amended): the export gate opens iff the report has no invalid entry
that carries a row index *and* names a column present in the dataset; invalid
dataset-level entries (`row_index = none`) and entries about absent columns do
not block export.  A zero-row dataset always passes the gate, and its report
is empty provided a unique-key alias column and the ENA-CHECKLIST column are
present. -/
theorem exportGate_spec (df : DataFrame) (specs : List SpecRow) :
    (exportGate df specs = true ↔
      ∀ is ∈ fullReport df specs,
        is.valid = true ∨ is.row_index = none ∨ is.field ∉ df.colnames) ∧
    (df.rows = [] → exportGate df specs = true) ∧
    (df.rows = [] →
      (UNIQUE_KEY_ALIASES.any fun k => df.colnames.contains k) = true →
      "ENA-CHECKLIST" ∈ df.colnames →
      fullReport df specs = []) := by
  refine ⟨⟨?_, ?_⟩, ?_, ?_⟩
  · intro hgate is hmem
    by_contra hcon
    push_neg at hcon
    obtain ⟨hval, hrow, hfield⟩ := hcon
    obtain ⟨i, hi⟩ := Option.ne_none_iff_exists'.mp hrow
    have hvf : is.valid = false := by simpa using hval
    have hlt : i < df.rows.length := fullReport_row_lt df specs is hmem i hi
    have h1 := (List.all_eq_true.mp hgate) i (List.mem_range.mpr hlt)
    have h2 := (List.all_eq_true.mp h1) is.field hfield
    have hmask : maskCell df specs i is.field = true := by
      unfold maskCell
      rw [List.any_eq_true]
      refine ⟨is, hmem, ?_⟩
      simp [hvf, hi, hlt]
    rw [hmask] at h2
    simp at h2
  · intro hall
    unfold exportGate
    rw [List.all_eq_true]
    intro i _
    rw [List.all_eq_true]
    intro c hc
    have hmf : maskCell df specs i c = false := by
      unfold maskCell
      cases hany : (fullReport df specs).any fun is =>
          !is.valid && is.row_index = some i &&
            decide (i < df.rows.length) && is.field = c with
      | false => rfl
      | true =>
        obtain ⟨is, hmem, hpred⟩ := List.any_eq_true.mp hany
        simp only [Bool.and_eq_true, Bool.not_eq_true', decide_eq_true_eq] at hpred
        rcases hall is hmem with h | h | h
        · rw [h] at hpred
          simp at hpred
        · rw [h] at hpred
          simp at hpred
        · exact absurd (hpred.2 ▸ hc) h
    rw [hmf]
    rfl
  · intro hrows
    simp [exportGate, hrows]
  · intro hrows hkey hena
    have h1 : validate_required df specs = [] := by
      simp [validate_required, hrows]
    have h2 : validate_regex df specs = [] := by
      simp [validate_regex, hrows]
    have h3 : validate_unique_key df (resolve_unique_key df) = [] := by
      obtain ⟨k, hkmem, hkcont⟩ := List.any_eq_true.mp hkey
      have hres : df.colnames.contains (resolve_unique_key df) = true := by
        unfold resolve_unique_key
        cases hf : UNIQUE_KEY_ALIASES.find? (fun k2 => df.colnames.contains k2) with
        | none => exact absurd hkcont (by simpa using List.find?_eq_none.mp hf k hkmem)
        | some k2 => exact List.find?_some hf
      have hmem2 : resolve_unique_key df ∈ df.colnames := by simpa using hres
      cases hidx : df.colnames.findIdx? (· = resolve_unique_key df) with
      | none =>
        have := List.findIdx?_eq_none_iff.mp hidx _ hmem2
        simp at this
      | some jx =>
        unfold validate_unique_key
        rw [hidx, hrows]
        rfl
    have h4 : validate_ena_checklist df = [] := by
      cases hidx : df.colnames.findIdx? (· = "ENA-CHECKLIST") with
      | none =>
        have := List.findIdx?_eq_none_iff.mp hidx _ hena
        simp at this
      | some jx =>
        unfold validate_ena_checklist
        rw [hidx, hrows]
        rfl
    have h5 : validate_semantics df = [] := by
      unfold validate_semantics
      rw [List.flatMap_eq_nil_iff]
      intro fp _
      cases hidx : df.colnames.findIdx? (· = fp.1) with
      | none => rfl
      | some jx =>
        rw [hrows]
        rfl
    unfold fullReport
    rw [h1, h2, h3, h4, h5]
    rfl

/-- C1 witness: the zero-row dataset with key and checklist columns present
yields an empty report and an open gate. -/
theorem exportGate_spec_witness :
    fullReport dfGateEmpty [] = [] ∧ exportGate dfGateEmpty [] = true := by
  have h := exportGate_spec dfGateEmpty []
  exact ⟨h.2.2 rfl (by decide) (by decide), h.2.1 rfl⟩
